import Mathlib

/-!
Verification development for the TECHXPO appointment-booking core.

Shallow embedding conventions:
* Slot times (`HH:MM` strings on the 20-minute grid) are represented by their
  minute-of-day as a `Nat`; the `HH:MM` rendering is a bijection on the grid, so
  slot identity, membership in the allowed set, and the minute arithmetic of
  `_compress_free_slots` are preserved exactly.
* Wall-clock times (`time.time()` floats) are represented by `Nat` seconds; the
  source only compares and adds them.
* The SQLite tables `bookings` and `holds` are represented by lists of rows; an
  `INSERT` that violates the declared primary key is the `IntegrityError` branch
  of the source, and `INSERT OR REPLACE` removes the rows that collide on the
  primary key before inserting.
* The hospital catalog (`get_hospital_meta`) is a parameter `Catalog`; only the
  lookups the booking operations perform are modelled.
* Python `str.title()` / `str.isdigit()` and whitespace handling are modelled on
  their ASCII behaviour; NFC normalisation is the identity on the strings used.
-/

namespace Techxpo

/-- Minute-of-day of the first slot start, 07:40 (`WORK_START`). -/
def WORK_START : Nat := 7 * 60 + 40

/-- Minute-of-day of the last slot start, 16:40 (`WORK_END`). -/
def WORK_END : Nat := 16 * 60 + 40

/-- Slot step in minutes (`SLOT_MINUTES`). -/
def SLOT_MINUTES : Nat := 20

/-- Slot generation `generate_slots` in closed form: the source loops
`while cur ≤ end` emitting `cur` and stepping by `step`, which for a positive
step emits `start + step * i` for every `i` with `start + step * i ≤ end`;
the source never calls it with step 0 (the loop would not terminate). -/
def generate_slots (start endM step : Nat) : List Nat :=
  if step = 0 then []
  else if endM < start then []
  else (List.range ((endM - start) / step + 1)).map (fun i => start + step * i)

/-- The fixed ordered slot grid (`ALL_SLOTS`), 07:40 .. 16:40 step 20. -/
def ALL_SLOTS : List Nat := generate_slots WORK_START WORK_END SLOT_MINUTES

/-- Python whitespace characters (ASCII range) used by `str.split`/`str.strip`. -/
def isPySpace (c : Char) : Bool :=
  c = ' ' || c = '\t' || c = '\n' || c = '\x0d' || c = '\x0b' || c = '\x0c'

/-- Python `str.strip()`. -/
def pyStrip (s : String) : String :=
  String.mk (((s.data.dropWhile isPySpace).reverse.dropWhile isPySpace).reverse)

/-- Split a character list at every separator character, keeping empty
pieces (the behaviour of Python `str.split(sep)` with an explicit separator). -/
def splitChars (p : Char → Bool) : List Char → List (List Char)
  | [] => [[]]
  | c :: cs =>
    match splitChars p cs with
    | [] => if p c then [[], []] else [[c]]
    | g :: gs => if p c then [] :: g :: gs else (c :: g) :: gs

/-- Python `str.split()` (split on whitespace runs, dropping empty pieces). -/
def pySplitWhitespace (s : String) : List String :=
  ((splitChars isPySpace s.data).filter (fun t => t ≠ [])).map String.mk

/-- Join character lists with a separator (Python `sep.join`). -/
def intercalateChars (sep : List Char) : List (List Char) → List Char
  | [] => []
  | [x] => x
  | x :: xs => x ++ sep ++ intercalateChars sep xs

/-- Character loop of Python `str.title()`: a letter is uppercased when the
previous character is not a letter, lowercased otherwise (ASCII behaviour). -/
def pyTitleGo : List Char → Bool → List Char
  | [], _ => []
  | c :: cs, prevAlpha =>
    (if c.isAlpha then (if prevAlpha then c.toLower else c.toUpper) else c)
      :: pyTitleGo cs c.isAlpha

/-- Python `str.title()`. -/
def pyTitle (s : String) : String := String.mk (pyTitleGo s.data false)

/-- Department display-name normalisation `_normalize_department`:
`" ".join(s.strip().split()).title()`. -/
def _normalize_department (s : String) : String :=
  pyTitle (String.mk (intercalateChars [' ']
    ((pySplitWhitespace (pyStrip s)).map String.data)))

/-- One department of a code-centric catalog entry (display name + roster). -/
structure DeptInfo where
  name : String
  doctors : List String
deriving Repr, DecidableEq

/-- Result of `get_hospital_meta`: legacy display-name view and code view. -/
structure HospitalMeta where
  departments : List (String × List String)
  departments_by_code : List (String × DeptInfo)
deriving Repr, DecidableEq

/-- The hospital catalog, as the mapping `get_hospital_meta` realises. -/
def Catalog := String → Option HospitalMeta

/-- Association-list lookup (Python `dict.get`). -/
def alistGet {α : Type} (m : List (String × α)) (k : String) : Option α :=
  (m.find? (fun p => p.1 == k)).map (fun p => p.2)

/-- Doctor roster under a department code (`get_doctors_for_department_codes`,
restricted to one code; absent hospital or code gives `[]` as in the source). -/
def doctors_for_code (cat : Catalog) (hosp code : String) : List String :=
  match cat hosp with
  | none => []
  | some meta =>
    match alistGet meta.departments_by_code code with
    | some info => info.doctors
    | none => []

/-- Doctor roster under a normalized display name
(`get_doctors_for_departments`, restricted to one name). -/
def doctors_for_name (cat : Catalog) (hosp depNorm : String) : List String :=
  match cat hosp with
  | none => []
  | some meta => (alistGet meta.departments depNorm).getD []

/-- Doctor verification shared by `book_slot` and `create_hold`: prefer the
code-based lookup when a code is given, fall back to the name-based lookup. -/
def doctor_ok (cat : Catalog) (hosp depNorm doctor : String)
    (dcode : Option String) : Bool :=
  let byCode :=
    match dcode with
    | some code => (doctors_for_code cat hosp code).contains doctor
    | none => false
  byCode || (doctors_for_name cat hosp depNorm).contains doctor

/-- Row of the `holds` table. Its primary key is
`(hospital_code, department, doctor_name, date, slot_time)` — it includes the
department display name. -/
structure HoldRow where
  hospital : String
  department : String
  doctor : String
  date : String
  slot : Nat
  sessionId : String
  heldAt : Nat
  expiresAt : Nat
  deptCode : Option String
deriving Repr, DecidableEq

/-- Row of the `bookings` table. Its primary key is
`(hospital_code, doctor_name, date, slot_time)` — no department. -/
structure BookingRow where
  hospital : String
  department : String
  doctor : String
  date : String
  slot : Nat
  deptCode : Option String
deriving Repr, DecidableEq

/-- The durable schedule store: both tables plus the process-wide
bookings-version counter. -/
structure Store where
  bookings : List BookingRow
  holds : List HoldRow
  version : Nat
deriving Repr, DecidableEq

/-- Match on the `holds` primary key (hospital, department, doctor, date, slot). -/
def holdKeyMatch (h : HoldRow) (hospital depNorm doctor date : String)
    (slot : Nat) : Bool :=
  h.hospital == hospital && h.department == depNorm && h.doctor == doctor &&
    h.date == date && h.slot == slot

/-- Match on the `bookings` primary key (hospital, doctor, date, slot). -/
def bookingKeyMatch (b : BookingRow) (hospital doctor date : String)
    (slot : Nat) : Bool :=
  b.hospital == hospital && b.doctor == doctor && b.date == date && b.slot == slot

/-- The expired-hold sweep of `create_hold`:
`DELETE FROM holds WHERE expires_at < now` (strict comparison). -/
def sweep_holds (holds : List HoldRow) (now : Nat) : List HoldRow :=
  holds.filter (fun h => !decide (h.expiresAt < now))

/-- Booking lookup used by `create_hold`: the `SELECT` filters on the
department as well as on hospital/doctor/date/slot. -/
def bookingDeptKeyMatch (b : BookingRow) (hospital depNorm doctor date : String)
    (slot : Nat) : Bool :=
  b.hospital == hospital && b.department == depNorm && b.doctor == doctor &&
    b.date == date && b.slot == slot

/-- The store operation `create_hold`: validate slot and doctor, sweep expired
holds, reject on an existing booking (department-qualified key) or on a live
hold of another session, otherwise upsert a hold owned by `session_id`. -/
def create_hold (cat : Catalog) (st : Store)
    (hospital department doctor date : String) (slot : Nat)
    (session_id : String) (ttl_seconds : Nat) (department_code : Option String)
    (now : Nat) : Store × Bool × String :=
  if slot ∉ ALL_SLOTS then (st, false, "invalid_slot_time")
  else
    let dep_norm := _normalize_department department
    if !(doctor_ok cat hospital dep_norm doctor department_code) then
      (st, false, "doctor_not_found_in_department")
    else
      let exp := now + max 60 ttl_seconds
      let holds1 := sweep_holds st.holds now
      let st1 : Store := { st with holds := holds1 }
      if st1.bookings.any
          (fun b => bookingDeptKeyMatch b hospital dep_norm doctor date slot) then
        (st1, false, "already_booked")
      else
        let newRow : HoldRow :=
          ⟨hospital, dep_norm, doctor, date, slot, session_id, now, exp,
            department_code⟩
        let holds2 :=
          holds1.filter
              (fun h => !holdKeyMatch h hospital dep_norm doctor date slot)
            ++ [newRow]
        let inserted : Store := { st1 with holds := holds2 }
        match holds1.find?
            (fun h => holdKeyMatch h hospital dep_norm doctor date slot) with
        | some h =>
          if h.sessionId ≠ session_id then (st1, false, "held_by_other")
          else (inserted, true, "held")
        | none => (inserted, true, "held")

/-- The store operation `book_slot`: validate slot and doctor, then insert; a
primary-key collision yields `already_booked`; success bumps the version. -/
def book_slot (cat : Catalog) (st : Store)
    (hospital department doctor date : String) (slot : Nat)
    (department_code : Option String) : Store × Bool × String :=
  if slot ∉ ALL_SLOTS then (st, false, "invalid_slot_time")
  else
    let dep_norm := _normalize_department department
    if !(doctor_ok cat hospital dep_norm doctor department_code) then
      (st, false, "doctor_not_found_in_department")
    else if st.bookings.any (fun b => bookingKeyMatch b hospital doctor date slot) then
      (st, false, "already_booked")
    else
      ({ st with
          bookings := st.bookings ++
            [⟨hospital, dep_norm, doctor, date, slot, department_code⟩],
          version := st.version + 1 }, true, "booked")

/-- The store operation `cancel_holds_for_session`: delete every hold of the
session; an empty session id is a no-op. -/
def cancel_holds_for_session (st : Store) (session_id : String) : Store :=
  if session_id = "" then st
  else { st with holds := st.holds.filter (fun h => h.sessionId != session_id) }

/-- The store operation `promote_hold_to_booking`: find the hold under the
department-qualified key, verify ownership and expiry, insert the booking
(bookings primary key has no department) and delete the hold in the same
transaction; an expired owned hold is deleted and reported `hold_expired`. -/
def promote_hold_to_booking (st : Store)
    (session_id hospital department doctor date : String) (slot : Nat)
    (department_code : Option String) (now : Nat) : Store × Bool × String :=
  let dep_norm := _normalize_department department
  match st.holds.find?
      (fun h => holdKeyMatch h hospital dep_norm doctor date slot) with
  | none => (st, false, "no_hold")
  | some h =>
    if h.sessionId ≠ session_id then (st, false, "held_by_other")
    else
      let holdsDel :=
        st.holds.filter
          (fun g => !holdKeyMatch g hospital dep_norm doctor date slot)
      if h.expiresAt < now then
        ({ st with holds := holdsDel }, false, "hold_expired")
      else
        let final_code :=
          match department_code with
          | some c => some c
          | none => h.deptCode
        if st.bookings.any (fun b => bookingKeyMatch b hospital doctor date slot) then
          (st, false, "already_booked")
        else
          let newBookings :=
            st.bookings ++ [⟨hospital, dep_norm, doctor, date, slot, final_code⟩]
          let stBooked : Store :=
            { bookings := newBookings, holds := holdsDel,
              version := st.version + 1 }
          (stBooked, true, "booked")

/-- The version accessor `get_bookings_version`. -/
def get_bookings_version (st : Store) : Nat := st.version

/-! Availability aggregation (`_compress_free_slots`, `_compute_availability`). -/

/-- Insertion step of the sort; Python `sorted(free_slots, key=to_minutes)`
sorts the minute values ascending, which on minute keys equals this sort. -/
def insertSorted (x : Nat) : List Nat → List Nat
  | [] => [x]
  | y :: ys => if x ≤ y then x :: y :: ys else y :: insertSorted x ys

/-- Sort of the free-slot list by minute-of-day. -/
def pySortNat : List Nat → List Nat
  | [] => []
  | x :: xs => insertSorted x (pySortNat xs)

/-- Loop of `_compress_free_slots`: extend the current run while the next slot
start is exactly `SLOT_MINUTES` after the previous one, else close the range at
the previous slot start. -/
def compressAux (start prev : Nat) : List Nat → List (Nat × Nat)
  | [] => [(start, prev)]
  | s :: rest =>
    if s - prev = SLOT_MINUTES then compressAux start s rest
    else (start, prev) :: compressAux s s rest

/-- Range compression `_compress_free_slots`: group contiguous free slot starts
into `(start, end)` pairs where `end` is the last slot start of the run. -/
def _compress_free_slots (free_slots : List Nat) : List (Nat × Nat) :=
  match pySortNat free_slots with
  | [] => []
  | x :: rest => compressAux x x rest

/-- Per-doctor availability triple of `_compute_availability`. -/
structure Availability where
  booked : List Nat
  free_slots : List Nat
  free_intervals : List (Nat × Nat)
deriving Repr, DecidableEq

/-- Availability computation `_compute_availability`: free slots are the
allowed grid minus the booked set, intervals compress the free slots. -/
def _compute_availability (booked : List Nat) : Availability :=
  let free_slots := ALL_SLOTS.filter (fun s => !(booked.contains s))
  ⟨booked, free_slots, _compress_free_slots free_slots⟩

/-! Stage-2 schedule aggregation (`_gather_schedule`). -/

/-- Display-name cleanup `_clean_display_name`: newlines to spaces, whitespace
runs collapsed, stripped (NFC is the identity on the strings considered). -/
def _clean_display_name (s : String) : String :=
  if s = "" then s
  else String.mk (intercalateChars [' '] ((pySplitWhitespace s).map String.data))

/-- Modelled from the spec: `get_blocked_snapshot_by_codes` is absent from the
source tree (only its caller `_gather_schedule` imports it from
`Dashboard.schedule_logic`).  Per the spec it reports, for a department code
and doctor, the union of the confirmed bookings and the live (unexpired)
holds for `(hospital, code, doctor, date)`. -/
def blocked_slots_for (st : Store) (hosp code doctor date : String)
    (now : Nat) : List Nat :=
  (st.bookings.filter
      (fun b => b.hospital == hosp && b.deptCode == some code &&
        b.doctor == doctor && b.date == date)).map (fun b => b.slot)
    ++ (st.holds.filter
        (fun h => h.hospital == hosp && h.deptCode == some code &&
          h.doctor == doctor && h.date == date &&
          !decide (h.expiresAt < now))).map (fun h => h.slot)

/-- One doctor entry of the Stage-2 schedule document. -/
structure DocEntry where
  name : String
  free_slots : List Nat
deriving Repr, DecidableEq

/-- One department entry of the Stage-2 schedule document. -/
structure DepEntry where
  department_code : String
  department_name : String
  doctors : List DocEntry
deriving Repr, DecidableEq

/-- One hospital entry of the Stage-2 schedule document. -/
structure HospEntry where
  hospital_code : String
  departments : List DepEntry
deriving Repr, DecidableEq

/-- Free-slot computation of `_gather_schedule` for one doctor: the allowed
grid minus the blocked snapshot entry for `(hospital, code, doctor, date)`. -/
def gather_doc_entry (st : Store) (hosp code date : String) (now : Nat)
    (doc : String) : DocEntry :=
  let blockedSlots := blocked_slots_for st hosp code doc date now
  ⟨doc, ALL_SLOTS.filter (fun s => !(blockedSlots.contains s))⟩

/-- Schedule aggregation `_gather_schedule`: for each discovered hospital with
a code-centric catalog view, for each selected department code present there,
one entry per roster doctor with its free slots.  (The display-name fallback
chain `info.name or code_display or code` is modelled without the
`departments_index` middle step, which only affects the displayed name.) -/
def _gather_schedule (cat : Catalog) (st : Store)
    (hospital_codes selected_department_codes : List String)
    (date : String) (now : Nat) : List HospEntry :=
  hospital_codes.filterMap (fun hosp =>
    match cat hosp with
    | none => none
    | some meta =>
      if meta.departments_by_code.isEmpty then none
      else
        let dep_entries := selected_department_codes.filterMap (fun code =>
          match alistGet meta.departments_by_code code with
          | none => none
          | some info =>
            let disp :=
              _clean_display_name (if info.name ≠ "" then info.name else code)
            some ⟨code, disp,
              info.doctors.map (gather_doc_entry st hosp code date now)⟩)
        if dep_entries.isEmpty then none
        else some ⟨hosp, dep_entries⟩)

/-! Stage-2 sanitisation (`_sanitize_stage2_options`).  Here the schedule
document and the options carry slot times as the strings the reasoner
produced, since the sanitizer compares raw strings. -/

/-- Python `a or b` on optional strings: `None` and `""` are falsy. -/
def pyOrStr (a b : Option String) : Option String :=
  match a with
  | some s => if s = "" then b else some s
  | none => b

/-- Slot token extraction `(o.get("slot_time") or "").split(" ")[-1]`. -/
def slotTok (slot_time : Option String) : String :=
  String.mk ((splitChars (fun c => c = ' ') (slot_time.getD "").data).getLastD [])

/-- Doctor entry of the schedule document fed to the Stage-2 reasoner. -/
structure SDoc where
  name : String
  free_slots : List String
deriving Repr, DecidableEq

/-- Department entry of the schedule document fed to the Stage-2 reasoner. -/
structure SDep where
  department_code : Option String
  department_name : Option String
  doctors : List SDoc
deriving Repr, DecidableEq

/-- Hospital entry of the schedule document fed to the Stage-2 reasoner. -/
structure SHosp where
  hospital_code : Option String
  hospital_name : Option String
  departments : List SDep
deriving Repr, DecidableEq

/-- The schedule document fed to the Stage-2 reasoner. -/
structure Sched where
  hospitals : List SHosp
deriving Repr, DecidableEq

/-- A Stage-2 option as the sanitizer sees it. -/
structure Opt where
  hospital : Option String
  hospital_code : Option String
  department : Option String
  department_code : Option String
  doctor_name : Option String
  slot_time : Option String
deriving Repr, DecidableEq

/-- Lookup in an association list built by Python dict assignment: the last
assignment to a key wins. -/
def lastAssoc {κ α : Type} [BEq κ] (pairs : List (κ × α)) (k : κ) : Option α :=
  (pairs.reverse.find? (fun p => p.1 == k)).map (fun p => p.2)

/-- Allowed-department entry of the sanitizer map: resolved display name and
doctor list. -/
structure AllowedDep where
  name : String
  doctors : List String
deriving Repr, DecidableEq

/-- First loop of `_sanitize_stage2_options`: per hospital code, the map of
department code to name/doctors; hospitals and departments with a falsy code
are skipped; doctors with a falsy name are dropped. -/
def hospAllowed (sched : Sched) : List (String × List (String × AllowedDep)) :=
  sched.hospitals.filterMap (fun h =>
    match h.hospital_code with
    | none => none
    | some hcode =>
      if hcode = "" then none
      else
        let dep_map := h.departments.filterMap (fun dep =>
          match dep.department_code with
          | none => none
          | some dcode =>
            if dcode = "" then none
            else
              let dname := (pyOrStr dep.department_name (some dcode)).getD dcode
              let docs := (dep.doctors.map (fun d => d.name)).filter (fun n => n ≠ "")
              some (dcode, ⟨dname, docs⟩))
        some (hcode, dep_map))

/-- Hospital display names collected by the first sanitizer loop
(`_clean_display_name(h.get("hospital_name") or hcode)`). -/
def hospitalNames (sched : Sched) : List (String × String) :=
  sched.hospitals.filterMap (fun h =>
    match h.hospital_code with
    | none => none
    | some hcode =>
      if hcode = "" then none
      else some (hcode, _clean_display_name ((pyOrStr h.hospital_name (some hcode)).getD hcode)))

/-- Second loop of `_sanitize_stage2_options`: the free-slot map keyed by
`(hospital_code, department_code, doctor)`; this loop does not skip a falsy
hospital code, only a falsy department code. -/
def freeTriples (sched : Sched) :
    List ((Option String × String × String) × List String) :=
  sched.hospitals.flatMap (fun h =>
    h.departments.flatMap (fun dep =>
      match dep.department_code with
      | none => []
      | some dcode =>
        if dcode = "" then []
        else dep.doctors.map (fun d => ((h.hospital_code, dcode, d.name), d.free_slots))))

/-- Per-option filter and rewrite step of `_sanitize_stage2_options`: either
the reason the option is dropped, or the option with resolved codes and
canonical display names. -/
def sanitizeOne (sched : Sched)
    (dim : List (String × List (String × String))) (o : Opt) : Option Opt :=
  let hospOpt := pyOrStr o.hospital_code o.hospital
  match hospOpt with
  | none => none
  | some hosp =>
    match lastAssoc (hospAllowed sched) hosp with
    | none => none
    | some dep_map =>
      match o.department_code with
      | none => none
      | some dep_code =>
        match lastAssoc dep_map dep_code with
        | none => none
        | some entry =>
          match o.doctor_name with
          | none => none
          | some doc =>
            if doc ∉ entry.doctors then none
            else
              let slot := slotTok o.slot_time
              let freeSet :=
                (lastAssoc (freeTriples sched) (some hosp, dep_code, doc)).getD []
              if slot ≠ "" ∧ slot ∉ freeSet then none
              else
                let canonical :=
                  match
                    (if dim.isEmpty then none
                     else (lastAssoc dim hosp).bind (fun inner => lastAssoc inner dep_code))
                  with
                  | some n => if n = "" then entry.name else n
                  | none => entry.name
                let o1 := { o with hospital_code := some hosp,
                                   department_code := some dep_code }
                let o2 :=
                  if canonical ≠ "" then
                    { o1 with department := some (_clean_display_name canonical) }
                  else o1
                let o3 :=
                  match lastAssoc (hospitalNames sched) hosp with
                  | some hn => if hn ≠ "" then { o2 with hospital := some hn } else o2
                  | none => o2
                some o3

/-- The sanitizer `_sanitize_stage2_options`: filter and rewrite the options,
then repair `chosen` against the surviving list. -/
def _sanitize_stage2_options (sched : Sched)
    (dim : List (String × List (String × String)))
    (options : List Opt) (chosen : Option Opt) : List Opt × Option Opt :=
  let valid_opts := options.filterMap (sanitizeOne sched dim)
  let chosen1 :=
    match chosen with
    | some c => if c ∉ valid_opts then valid_opts.head? else some c
    | none => none
  (valid_opts, chosen1)

/-! Customer store (`storage.py`): phone normalisation, the deterministic
customer id (SHA-1 based) and `get_or_create_customer`. -/

/-- UTF-8 encoding of one character, as byte values. -/
def utf8EncodeChar (c : Char) : List Nat :=
  let n := c.toNat
  if n < 0x80 then [n]
  else if n < 0x800 then [0xC0 + n / 0x40, 0x80 + n % 0x40]
  else if n < 0x10000 then
    [0xE0 + n / 0x1000, 0x80 + (n / 0x40) % 0x40, 0x80 + n % 0x40]
  else
    [0xF0 + n / 0x40000, 0x80 + (n / 0x1000) % 0x40, 0x80 + (n / 0x40) % 0x40,
      0x80 + n % 0x40]

/-- UTF-8 encoding of a string (`str.encode("utf-8")`), as byte values. -/
def utf8Bytes (s : String) : List Nat := s.data.flatMap utf8EncodeChar

/-- Reduction to a 32-bit word. -/
def mod32 (x : Nat) : Nat := x % 2 ^ 32

/-- 32-bit left rotation (operand assumed below `2 ^ 32`). -/
def rotl32 (n x : Nat) : Nat := mod32 (x * 2 ^ n) ||| x / 2 ^ (32 - n)

/-- 32-bit complement. -/
def not32 (x : Nat) : Nat := 0xFFFFFFFF ^^^ x

/-- Big-endian bytes of a number, fixed width. -/
def beBytes (n count : Nat) : List Nat :=
  (List.range count).map (fun i => n / 2 ^ (8 * (count - 1 - i)) % 256)

/-- Big-endian 32-bit words from a byte list. -/
def bytesToWords : List Nat → List Nat
  | b0 :: b1 :: b2 :: b3 :: rest =>
    (((b0 * 256 + b1) * 256 + b2) * 256 + b3) :: bytesToWords rest
  | _ => []

/-- SHA-1 message-schedule extension from 16 to 80 words. -/
def sha1Extend (acc : List Nat) : Nat → List Nat
  | 0 => acc
  | fuel + 1 =>
    let i := acc.length
    let g (k : Nat) : Nat := acc.getD (i - k) 0
    sha1Extend (acc ++ [rotl32 1 (g 3 ^^^ g 8 ^^^ g 14 ^^^ g 16)]) fuel

/-- SHA-1 round function. -/
def sha1F (t b c d : Nat) : Nat :=
  if t < 20 then (b &&& c) ||| (not32 b &&& d)
  else if t < 40 then b ^^^ c ^^^ d
  else if t < 60 then (b &&& c) ||| (b &&& d) ||| (c &&& d)
  else b ^^^ c ^^^ d

/-- SHA-1 round constants. -/
def sha1K (t : Nat) : Nat :=
  if t < 20 then 0x5A827999
  else if t < 40 then 0x6ED9EBA1
  else if t < 60 then 0x8F1BBCDC
  else 0xCA62C1D6

/-- SHA-1 working state. -/
structure Sha1State where
  a : Nat
  b : Nat
  c : Nat
  d : Nat
  e : Nat
deriving Repr, DecidableEq

/-- The 80 SHA-1 rounds over one block's schedule. -/
def sha1Rounds : List Nat → Nat → Sha1State → Sha1State
  | [], _, st => st
  | w :: ws, t, st =>
    let tmp := mod32 (rotl32 5 st.a + sha1F t st.b st.c st.d + st.e + sha1K t + w)
    sha1Rounds ws (t + 1) ⟨tmp, st.a, rotl32 30 st.b, st.c, st.d⟩

/-- One SHA-1 block compression. -/
def sha1Compress (h : Sha1State) (chunk : List Nat) : Sha1State :=
  let w := sha1Extend (bytesToWords chunk) 64
  let s := sha1Rounds w 0 h
  ⟨mod32 (h.a + s.a), mod32 (h.b + s.b), mod32 (h.c + s.c), mod32 (h.d + s.d),
    mod32 (h.e + s.e)⟩

/-- SHA-1 padding: `0x80`, zeros to 56 mod 64, 8-byte big-endian bit length. -/
def sha1Pad (msg : List Nat) : List Nat :=
  msg ++ [0x80] ++ List.replicate ((119 - msg.length % 64) % 64) 0
    ++ beBytes (msg.length * 8) 8

/-- Byte-at-a-time absorption: buffer bytes and compress each full 64-byte
block (the padded message length is a multiple of 64, so the final buffer is
empty). -/
def sha1Absorb (acc : Sha1State × List Nat) (b : Nat) : Sha1State × List Nat :=
  let buf := acc.2 ++ [b]
  if buf.length = 64 then (sha1Compress acc.1 buf, []) else (acc.1, buf)

/-- Lowercase hex digit. -/
def hexDigit (n : Nat) : Char :=
  if n < 10 then Char.ofNat (48 + n) else Char.ofNat (87 + n)

/-- Lowercase 8-digit hex rendering of a 32-bit word. -/
def toHex8 (w : Nat) : String :=
  String.mk ((List.range 8).map (fun i => hexDigit (w / 2 ^ (4 * (7 - i)) % 16)))

/-- The hex digest `hashlib.sha1(bytes).hexdigest()`. -/
def sha1Hex (msg : List Nat) : String :=
  let final := ((sha1Pad msg).foldl sha1Absorb
    (⟨0x67452301, 0xEFCDAB89, 0x98BADCFE, 0x10325476, 0xC3D2E1F0⟩, [])).1
  toHex8 final.a ++ toHex8 final.b ++ toHex8 final.c ++ toHex8 final.d
    ++ toHex8 final.e

/-- Phone normalisation `_normalize_phone`: keep the digit characters, and the
sentinel `"unknown"` when none remain (digits modelled on ASCII). -/
def _normalize_phone (p : String) : String :=
  let digits := String.mk (p.data.filter (fun c => c.isDigit))
  if digits = "" then "unknown" else digits

/-- Deterministic customer id `_stable_id_from_phone`: `CUS-` plus the first
10 hex characters of the SHA-1 of the normalised phone. -/
def _stable_id_from_phone (phone : String) : String :=
  let norm := _normalize_phone phone
  "CUS-" ++ String.mk ((sha1Hex (utf8Bytes norm)).data.take 10)

/-- Row of the `customers` table. -/
structure Customer where
  id : String
  name : String
  phone : String
  facts : String
  last_summary : String
deriving Repr, DecidableEq

/-- The operation `get_or_create_customer`: normalise the phone, update the
stored name when a row with that phone exists, otherwise insert a fresh row
under the derived id (`INSERT OR REPLACE` evicts unique-key collisions). -/
def get_or_create_customer (db : List Customer) (name phone : String) :
    List Customer × String × Bool :=
  let p := _normalize_phone phone
  match db.find? (fun c => c.phone == p) with
  | some c =>
    (db.map (fun r => if r.id == c.id then { r with name := name } else r),
      c.id, false)
  | none =>
    let cid := _stable_id_from_phone p
    (db.filter (fun r => r.id != cid && r.phone != p) ++ [⟨cid, name, p, "", ""⟩],
      cid, true)

/-! Session orchestrator (`function_calling_def.py`): the synchronous shared
state effects of `schedule_appointment` and of the two `finalize_visit`
implementations. -/

/-- The `chosen` option stored inside a planner result. -/
structure ChosenOpt where
  hospital : Option String
  hospital_code : Option String
  department : Option String
  department_code : Option String
  doctor_name : Option String
  slot_time : Option String
deriving Repr, DecidableEq

/-- A planner result held in `shared["latest_booking"]`, restricted to the
fields the session tools read. -/
structure PlannerResult where
  preferred_time : Option String
  chosen : Option ChosenOpt
deriving Repr, DecidableEq

/-- The per-session shared state the tools manipulate. -/
structure SessionShared where
  identity_confirmed : Bool
  booking_in_progress : Bool
  closing : Bool
  allow_finalize : Bool
  latest_booking : Option PlannerResult
deriving Repr, DecidableEq

/-- Synchronous outcome of `schedule_appointment` (the `pending` case spawns
the background planner task). -/
inductive ScheduleOutcome where
  | identity_not_confirmed
  | booking_in_progress
  | duplicate_booking
  | pending
deriving Repr, DecidableEq

/-- Synchronous prefix of the TECHXPO `schedule_appointment` tool: it first
clears `latest_booking` and `allow_finalize`, then checks identity, then the
in-progress guard, then the duplicate check against the (just cleared)
previous result, and finally marks the booking in progress. -/
def schedule_appointment (sh : SessionShared) (preferred_time : Option String) :
    SessionShared × ScheduleOutcome :=
  let sh1 := { sh with latest_booking := none, allow_finalize := false }
  if !sh1.identity_confirmed then (sh1, .identity_not_confirmed)
  else if sh1.booking_in_progress then (sh1, .booking_in_progress)
  else
    let prev := sh1.latest_booking
    let dup :=
      match prev, preferred_time with
      | some p, some t => t ≠ "" && p.preferred_time == some t
      | _, _ => false
    if dup then (sh1, .duplicate_booking)
    else ({ sh1 with booking_in_progress := true }, .pending)

/-- Python `x or None` on an optional string (empty string becomes `None`). -/
def pyOrNone (a : Option String) : Option String :=
  match a with
  | some s => if s = "" then none else some s
  | none => none

/-- Parse of an `HH:MM` token back to minute-of-day (the inverse of the slot
rendering; tokens that are not an `HH:MM` pair map outside the grid). -/
def digitsToNat? (cs : List Char) : Option Nat :=
  if cs = [] then none
  else if cs.all (fun c => c.isDigit) then
    some (cs.foldl (fun acc c => acc * 10 + (c.toNat - 48)) 0)
  else none

/-- Parse of an `HH:MM` token back to minute-of-day (see `hhmmToMinutes`). -/
def hhmmToMinutes (s : String) : Nat :=
  match splitChars (fun c => c = ':') s.data with
  | [h, m] => ((digitsToNat? h).getD 0) * 60 + (digitsToNat? m).getD 0
  | _ => 9999

/-- A persisted visit row, restricted to the fields the claims inspect. -/
structure VisitRow where
  customer_id : String
  booking : Option PlannerResult
deriving Repr, DecidableEq

/-- Booking persistence block of the TECHXPO `finalize_visit`: when a chosen
option with all of hospital, department, doctor, date and time is present,
promote the session's hold, falling back to a direct booking when promotion
fails; otherwise leave the store unchanged. -/
def finalize_persist (cat : Catalog) (st : Store) (session_id : String)
    (latest_booking : Option PlannerResult) (now : Nat) : Store :=
  match latest_booking with
  | none => st
  | some lb =>
    match lb.chosen with
    | none => st
    | some ch =>
      let slot_time_full := ch.slot_time.getD ""
      let pieces := splitChars (fun c => c = ' ') slot_time_full.data
      let date_part := String.mk (pieces.headD [])
      let time_part := String.mk (pieces.getLastD [])
      let hospital_code := (pyOrStr ch.hospital_code ch.hospital).getD ""
      let department := ch.department.getD ""
      let doctor_name := ch.doctor_name.getD ""
      let department_code := pyOrNone ch.department_code
      if hospital_code ≠ "" ∧ department ≠ "" ∧ doctor_name ≠ "" ∧
          date_part ≠ "" ∧ time_part ≠ "" then
        let slot := hhmmToMinutes time_part
        let r1 := promote_hold_to_booking st session_id hospital_code department
          doctor_name date_part slot department_code now
        if r1.2.1 then r1.1
        else (book_slot cat r1.1 hospital_code department doctor_name date_part
          slot department_code).1
      else st

/-- The TECHXPO `finalize_visit` tool.  The guard that recomputes
`not allow_finalize or latest_booking is None` is a `pass` statement in the
source: its value is discarded and execution continues.  The background
finalizer thread is modelled synchronously on its effect: it always persists
exactly one visit row for the customer (the reasoner summarisation only
shapes the payload).  Returns the updated shared state, store, visit table
and the `ok` field of the tool result. -/
def finalize_visit_techxpo (cat : Catalog) (sh : SessionShared) (st : Store)
    (visits : List VisitRow) (session_id cid : String) (now : Nat) :
    SessionShared × Store × List VisitRow × Bool :=
  if sh.closing then (sh, st, visits, false)
  else
    let _vacuous_guard := !sh.allow_finalize || sh.latest_booking == none
    let st1 := finalize_persist cat st session_id sh.latest_booking now
    let visits1 := visits ++ [⟨cid, sh.latest_booking⟩]
    ({ sh with allow_finalize := false, latest_booking := none, closing := true },
      st1, visits1, true)

/-- The legacy root-level `finalize_visit` tool: the same guard returns a
failure result, so nothing is persisted; it never touches the booking store
(the legacy flow has no hold promotion). -/
def finalize_visit_legacy (sh : SessionShared) (st : Store)
    (visits : List VisitRow) (cid : String) :
    SessionShared × Store × List VisitRow × Bool :=
  if sh.closing then (sh, st, visits, false)
  else if !sh.allow_finalize || sh.latest_booking == none then
    (sh, st, visits, false)
  else
    let visits1 := visits ++ [⟨cid, sh.latest_booking⟩]
    ({ sh with allow_finalize := false, latest_booking := none, closing := true },
      st, visits1, true)

/-! Sequences of store operations, for the version-counter invariant. -/

/-- One mutation of the schedule store. -/
inductive StoreOp where
  | book (cat : Catalog) (hospital department doctor date : String) (slot : Nat)
      (dcode : Option String)
  | hold (cat : Catalog) (hospital department doctor date : String) (slot : Nat)
      (sid : String) (ttl : Nat) (dcode : Option String) (now : Nat)
  | cancel (sid : String)
  | promote (sid hospital department doctor date : String) (slot : Nat)
      (dcode : Option String) (now : Nat)

/-- State effect of one store operation. -/
def applyOp (st : Store) : StoreOp → Store
  | .book cat hospital department doctor date slot dcode =>
    (book_slot cat st hospital department doctor date slot dcode).1
  | .hold cat hospital department doctor date slot sid ttl dcode now =>
    (create_hold cat st hospital department doctor date slot sid ttl dcode now).1
  | .cancel sid => cancel_holds_for_session st sid
  | .promote sid hospital department doctor date slot dcode now =>
    (promote_hold_to_booking st sid hospital department doctor date slot dcode now).1

/-- State after a sequence of store operations. -/
def runOps (st : Store) (ops : List StoreOp) : Store := ops.foldl applyOp st

/-! Concrete instances used by the witnesses and counterexamples. -/

/-- A catalog with one hospital `H1` where doctor `Bs X` is on the roster of
both departments `Khoa A` and `Khoa B` (legacy name-keyed view). -/
def catTwoDepts : Catalog := fun h =>
  if h = "H1" then some ⟨[("Khoa A", ["Bs X"]), ("Khoa B", ["Bs X"])], []⟩
  else none

/-- A catalog whose hospital `H1` also carries the code-centric view. -/
def catCoded : Catalog := fun h =>
  if h = "H1" then
    some ⟨[("Khoa A", ["Bs X"])], [("KA", ⟨"Khoa A", ["Bs X"]⟩)]⟩
  else none

/-- The empty store. -/
def emptyStore : Store := ⟨[], [], 0⟩

/-- Session S1 takes a hold on `(H1, Khoa A, Bs X, 2025-01-15, 08:00)`. -/
def holdA := create_hold catTwoDepts emptyStore "H1" "Khoa A" "Bs X"
  "2025-01-15" 480 "S1" 300 none 0

/-- Session S2 then asks for the same doctor and slot under the display name
`Khoa B`. -/
def holdB := create_hold catTwoDepts holdA.1 "H1" "Khoa B" "Bs X"
  "2025-01-15" 480 "S2" 300 none 0

/-- A store holding one hold whose expiry instant equals 100. -/
def stEq : Store := ⟨[], [⟨"H1", "Khoa A", "Bs X", "D", 480, "S1", 0, 100, none⟩], 0⟩

/-- `create_hold` on a different slot at `now = 100`, which sweeps first. -/
def holdEqSweep := create_hold catTwoDepts stEq "H1" "Khoa A" "Bs X" "D" 500
  "S2" 300 none 100

/-- A store holding one hold that expired at 50. -/
def stStale : Store := ⟨[], [⟨"H1", "Khoa A", "Bs X", "D", 480, "S1", 0, 50, none⟩], 0⟩

/-- `promote_hold_to_booking` for an unrelated key at `now = 100`. -/
def promoteNoSweep := promote_hold_to_booking stStale "S2" "H1" "Khoa B" "Bs Y"
  "D" 520 none 100

/-- A store where S1 holds `(H1, Khoa A, Bs X, D, 08:00)` while a confirmed
booking for the same doctor and slot exists under display name `Khoa B`. -/
def stPromoteAB : Store := ⟨[⟨"H1", "Khoa B", "Bs X", "D", 480, none⟩],
  [⟨"H1", "Khoa A", "Bs X", "D", 480, "S1", 0, 1000, none⟩], 3⟩

/-- S1 promotes its live, owned hold over the existing booking. -/
def promoteAB := promote_hold_to_booking stPromoteAB "S1" "H1" "Khoa A" "Bs X"
  "D" 480 none 100

/-- A store where S1 owns a live hold on `(H1, Khoa A, Bs X, D, 08:00)`. -/
def stHeld : Store := ⟨[], [⟨"H1", "Khoa A", "Bs X", "D", 480, "S1", 0, 1000, none⟩], 0⟩

/-- A Stage-2 schedule document with one hospital, one department and one
doctor whose only free slot is `08:00`. -/
def schedCE : Sched :=
  ⟨[⟨some "H1", some "BV 1", [⟨some "KB", some "Kham Benh", [⟨"Bs A", ["08:00"]⟩]⟩]⟩]⟩

/-- A reasoner option whose `slot_time` is the empty string. -/
def optEmptySlot : Opt := ⟨none, some "H1", none, some "KB", some "Bs A", some ""⟩

/-- Sanitisation of that single option. -/
def sanCE := _sanitize_stage2_options schedCE [] [optEmptySlot] (some optEmptySlot)

/-- A valid option for the schedule document above. -/
def optGood : Opt := ⟨none, some "H1", none, some "KB", some "Bs A",
  some "2025-01-15 08:00"⟩

/-- Sanitisation of the valid option. -/
def sanGood := _sanitize_stage2_options schedCE [] [optGood] (some optGood)

/-- Session state after an identity change cleared the planner result:
confirmed identity, no booking in progress, not closing, finalize disabled,
`latest_booking` cleared. -/
def shCleared : SessionShared := ⟨true, false, false, false, none⟩

/-- The TECHXPO `finalize_visit` on the cleared state. -/
def finTechxpoCleared := finalize_visit_techxpo catTwoDepts shCleared emptyStore
  [] "S1" "CID" 0

/-- The legacy `finalize_visit` on the cleared state. -/
def finLegacyCleared := finalize_visit_legacy shCleared emptyStore [] "CID"

/-- A customer table with one unrelated customer. -/
def dbOne : List Customer := [⟨"CUS-x", "Alice", "0901234567", "", ""⟩]

/-- A store with one coded booking at 08:00 and one live coded hold at 08:40
for the same doctor. -/
def stBlocked : Store := ⟨[⟨"H1", "Khoa A", "Bs X", "D", 480, some "KA"⟩],
  [⟨"H1", "Khoa A", "Bs X", "D", 520, "S1", 0, 1000, some "KA"⟩], 5⟩

/-! Theorems. -/

/-- Helper: `create_hold` never changes the version counter. -/
theorem create_hold_version_eq (cat : Catalog) (st : Store)
    (hospital department doctor date : String) (slot : Nat) (sid : String)
    (ttl : Nat) (dcode : Option String) (now : Nat) :
    ((create_hold cat st hospital department doctor date slot sid ttl dcode
      now).1).version = st.version := by
  unfold create_hold
  dsimp only
  split
  · rfl
  · split
    · rfl
    · split
      · rfl
      · split
        · split
          · rfl
          · rfl
        · rfl

/-- Helper: `book_slot` bumps the version exactly on success. -/
theorem book_slot_version_eq (cat : Catalog) (st : Store)
    (hospital department doctor date : String) (slot : Nat)
    (dcode : Option String) :
    ((book_slot cat st hospital department doctor date slot dcode).1).version
      = (if (book_slot cat st hospital department doctor date slot dcode).2.1
          then st.version + 1 else st.version) := by
  unfold book_slot
  dsimp only
  split
  · rfl
  · split
    · rfl
    · split
      · rfl
      · rfl

/-- Helper: `promote_hold_to_booking` bumps the version exactly on success. -/
theorem promote_version_eq (st : Store)
    (sid hospital department doctor date : String) (slot : Nat)
    (dcode : Option String) (now : Nat) :
    ((promote_hold_to_booking st sid hospital department doctor date slot dcode
      now).1).version
      = (if (promote_hold_to_booking st sid hospital department doctor date slot
          dcode now).2.1 then st.version + 1 else st.version) := by
  unfold promote_hold_to_booking
  dsimp only
  split
  · rfl
  · split
    · rfl
    · split
      · rfl
      · split
        · rfl
        · rfl

/-- Helper: `cancel_holds_for_session` never changes the version counter. -/
theorem cancel_version_eq (st : Store) (sid : String) :
    (cancel_holds_for_session st sid).version = st.version := by
  unfold cancel_holds_for_session
  split <;> rfl

/-- Helper: one store operation never decreases the version counter. -/
theorem applyOp_version_le (st : Store) (op : StoreOp) :
    st.version ≤ (applyOp st op).version := by
  cases op with
  | book cat hospital department doctor date slot dcode =>
    have h := book_slot_version_eq cat st hospital department doctor date slot dcode
    simp only [applyOp, h]
    split <;> omega
  | hold cat hospital department doctor date slot sid ttl dcode now =>
    have h := create_hold_version_eq cat st hospital department doctor date slot
      sid ttl dcode now
    simp only [applyOp, h, le_refl]
  | cancel sid =>
    have h := cancel_version_eq st sid
    simp only [applyOp, h, le_refl]
  | promote sid hospital department doctor date slot dcode now =>
    have h := promote_version_eq st sid hospital department doctor date slot dcode now
    simp only [applyOp, h]
    split <;> omega

/-- Helper: version monotonicity over a sequence of store operations. -/
theorem runOps_version_le (st : Store) (ops : List StoreOp) :
    st.version ≤ (runOps st ops).version := by
  induction ops generalizing st with
  | nil => exact le_refl _
  | cons op rest ih =>
    calc st.version ≤ (applyOp st op).version := applyOp_version_le st op
      _ ≤ (runOps (applyOp st op) rest).version := ih _

/-- C6: the bookings version never decreases across any sequence of store
operations; it increases by exactly one on every successful `book_slot` and
every successful `promote_hold_to_booking`, and is unchanged by `create_hold`,
by failed booking attempts, and by `cancel_holds_for_session`. -/
theorem bookings_version_invariant :
    (∀ st ops, get_bookings_version st ≤ get_bookings_version (runOps st ops)) ∧
    (∀ cat st hospital department doctor date slot dcode,
      ((book_slot cat st hospital department doctor date slot dcode).2.1 = true →
        get_bookings_version (book_slot cat st hospital department doctor date
          slot dcode).1 = get_bookings_version st + 1) ∧
      ((book_slot cat st hospital department doctor date slot dcode).2.1 = false →
        get_bookings_version (book_slot cat st hospital department doctor date
          slot dcode).1 = get_bookings_version st)) ∧
    (∀ st sid hospital department doctor date slot dcode now,
      ((promote_hold_to_booking st sid hospital department doctor date slot dcode
          now).2.1 = true →
        get_bookings_version (promote_hold_to_booking st sid hospital department
          doctor date slot dcode now).1 = get_bookings_version st + 1) ∧
      ((promote_hold_to_booking st sid hospital department doctor date slot dcode
          now).2.1 = false →
        get_bookings_version (promote_hold_to_booking st sid hospital department
          doctor date slot dcode now).1 = get_bookings_version st)) ∧
    (∀ cat st hospital department doctor date slot sid ttl dcode now,
      get_bookings_version (create_hold cat st hospital department doctor date
        slot sid ttl dcode now).1 = get_bookings_version st) ∧
    (∀ st sid, get_bookings_version (cancel_holds_for_session st sid)
      = get_bookings_version st) := by
  refine ⟨fun st ops => runOps_version_le st ops, ?_, ?_, ?_, ?_⟩
  · intro cat st hospital department doctor date slot dcode
    have h := book_slot_version_eq cat st hospital department doctor date slot dcode
    constructor <;> intro hok <;> simp_all [get_bookings_version]
  · intro st sid hospital department doctor date slot dcode now
    have h := promote_version_eq st sid hospital department doctor date slot dcode now
    constructor <;> intro hok <;> simp_all [get_bookings_version]
  · intro cat st hospital department doctor date slot sid ttl dcode now
    exact create_hold_version_eq cat st hospital department doctor date slot sid
      ttl dcode now
  · intro st sid
    exact cancel_version_eq st sid

/-- C6 (witness): on the concrete two-department catalog, a successful direct
booking bumps the version of the empty store from 0 to 1. -/
theorem bookings_version_invariant_witness :
    get_bookings_version (book_slot catTwoDepts emptyStore "H1" "Khoa A" "Bs X"
      "D" 480 none).1 = get_bookings_version emptyStore + 1 :=
  (bookings_version_invariant.2.1 catTwoDepts emptyStore "H1" "Khoa A" "Bs X"
    "D" 480 none).1 (by decide)

/-- C9: every call to `schedule_appointment` clears `latest_booking` and
`allow_finalize` before any precondition is checked, so even rejected calls
erase the previous planner result, and the duplicate-booking check always
observes a cleared result: the outcome is never `duplicate_booking`. -/
theorem schedule_appointment_clears_state (sh : SessionShared)
    (pt : Option String) :
    (schedule_appointment sh pt).1.latest_booking = none ∧
    (schedule_appointment sh pt).1.allow_finalize = false ∧
    (schedule_appointment sh pt).2 ≠ ScheduleOutcome.duplicate_booking := by
  unfold schedule_appointment
  dsimp only
  split
  · exact ⟨rfl, rfl, by simp⟩
  · split
    · exact ⟨rfl, rfl, by simp⟩
    · cases pt <;> simp

/-- C9 (witness): the theorem applied to a state that would be rejected with
`identity_not_confirmed` but still held a planner result. -/
theorem schedule_appointment_clears_state_witness :
    (schedule_appointment ⟨false, false, false, true, some ⟨some "08:00", none⟩⟩
      (some "08:00")).1.latest_booking = none :=
  (schedule_appointment_clears_state
    ⟨false, false, false, true, some ⟨some "08:00", none⟩⟩ (some "08:00")).1

/-- C4 (code_bug evaluation): with `latest_booking` cleared and
`allow_finalize` false, the TECHXPO `finalize_visit` still returns ok and
persists a visit row — its guard is a `pass` — while the legacy implementation
returns a failure result and persists nothing; neither touches the booking
store. -/
theorem finalize_visit_cleared_booking_behaviour :
    finTechxpoCleared.2.2.2 = true ∧
    finTechxpoCleared.2.2.1 = [⟨"CID", none⟩] ∧
    finTechxpoCleared.2.1 = emptyStore ∧
    finLegacyCleared.2.2.2 = false ∧
    finLegacyCleared.2.2.1 = [] ∧
    finLegacyCleared.2.1 = emptyStore := by
  refine ⟨rfl, rfl, rfl, rfl, rfl, rfl⟩

/-- C1 (counterexample): two distinct sessions obtain simultaneous live holds
on the same `(hospital, doctor, date, slot)` by using different department
display names — the holds primary key includes the department, so the second
`create_hold` succeeds instead of failing. -/
theorem create_hold_two_live_holds_counterexample :
    holdB.2.1 = true ∧
    holdB.1.holds.map
        (fun h => (h.hospital, h.doctor, h.date, h.slot, h.sessionId, h.expiresAt))
      = [("H1", "Bs X", "2025-01-15", 480, "S1", 300),
         ("H1", "Bs X", "2025-01-15", 480, "S2", 300)] := by
  refine ⟨rfl, rfl⟩

/-- C2 (counterexample): `promote_hold_to_booking` can fail with
`already_booked` — a failure kind outside `no_hold`/`held_by_other`/
`hold_expired` — when the session owns a live hold but a booking already
occupies `(hospital, doctor, date, slot)` under another department name. -/
theorem promote_failure_kind_counterexample :
    promoteAB.2.1 = false ∧ promoteAB.2.2 = "already_booked" ∧
    promoteAB.2.2 ∉ ["no_hold", "held_by_other", "hold_expired"] ∧
    (∃ h ∈ stPromoteAB.holds, h.sessionId = "S1" ∧ ¬ (h.expiresAt < 100)) := by
  refine ⟨rfl, rfl, by decide, ?_⟩
  exact ⟨⟨"H1", "Khoa A", "Bs X", "D", 480, "S1", 0, 1000, none⟩, by decide, rfl, by decide⟩

/-- C5 (counterexample): a hold whose `expires_at` equals the current time
survives the `create_hold` sweep (the sweep deletes only `expires_at < now`),
and `promote_hold_to_booking` performs no sweep at all: a hold expired at 50
is still present after a promote call at `now = 100` for an unrelated key. -/
theorem hold_sweep_counterexample :
    holdEqSweep.2.1 = true ∧
    (⟨"H1", "Khoa A", "Bs X", "D", 480, "S1", 0, 100, none⟩ : HoldRow)
      ∈ holdEqSweep.1.holds ∧
    promoteNoSweep.1.holds = stStale.holds ∧
    (∃ h ∈ promoteNoSweep.1.holds, h.expiresAt < 100) := by
  refine ⟨rfl, by decide, rfl, ?_⟩
  exact ⟨⟨"H1", "Khoa A", "Bs X", "D", 480, "S1", 0, 50, none⟩, by decide, by decide⟩

/-- C7 (counterexample): an option whose `slot_time` is empty survives the
Stage-2 sanitizer although its slot token is not in the free-slot map — the
slot check is skipped for a falsy slot token. -/
theorem sanitize_empty_slot_counterexample :
    sanCE.1.length = 1 ∧
    (∀ o ∈ sanCE.1, o.slot_time = some "" ∧
      slotTok o.slot_time ∉
        (lastAssoc (freeTriples schedCE) (some "H1", "KB", "Bs A")).getD []) := by
  refine ⟨rfl, by decide⟩

/-- C1 (amended): with a valid slot and doctor, `create_hold` by a second
session fails with `held_by_other` or `already_booked` whenever another
session already holds (live) or a booking already occupies the same
`(hospital, normalized department, doctor, date, slot)` — the
department-qualified key under which the holds table is actually keyed. -/
theorem create_hold_conflict_same_department
    (cat : Catalog) (st : Store) (hospital department doctor date : String)
    (slot : Nat) (s1 s2 : String) (ttl : Nat) (dcode : Option String)
    (now : Nat)
    (hne : s1 ≠ s2)
    (hslot : slot ∈ ALL_SLOTS)
    (hdoc : doctor_ok cat hospital (_normalize_department department) doctor
      dcode = true)
    (hwf : ∀ h1 ∈ st.holds, ∀ h2 ∈ st.holds,
      holdKeyMatch h1 hospital (_normalize_department department) doctor date
        slot = true →
      holdKeyMatch h2 hospital (_normalize_department department) doctor date
        slot = true → h1 = h2)
    (hconf : (∃ h ∈ st.holds,
        holdKeyMatch h hospital (_normalize_department department) doctor date
          slot = true ∧ h.sessionId = s1 ∧ now ≤ h.expiresAt) ∨
      (∃ b ∈ st.bookings,
        bookingDeptKeyMatch b hospital (_normalize_department department)
          doctor date slot = true)) :
    (create_hold cat st hospital department doctor date slot s2 ttl dcode
        now).2.1 = false ∧
    ((create_hold cat st hospital department doctor date slot s2 ttl dcode
        now).2.2 = "held_by_other" ∨
     (create_hold cat st hospital department doctor date slot s2 ttl dcode
        now).2.2 = "already_booked") := by
  unfold create_hold
  simp only [hslot, not_true_eq_false, if_false, hdoc, Bool.not_true,
    Bool.false_eq_true, ite_false, if_neg]
  set depN := _normalize_department department with hdepN
  by_cases hb : (st.bookings.any
      fun b => bookingDeptKeyMatch b hospital depN doctor date slot) = true
  · rw [if_pos hb]
    exact ⟨rfl, Or.inr rfl⟩
  · rw [if_neg hb]
    rcases hconf with ⟨h, hmem, hkey, hsess, hexp⟩ | ⟨b, hbmem, hbkey⟩
    · have hmem1 : h ∈ sweep_holds st.holds now := by
        simp only [sweep_holds, List.mem_filter]
        exact ⟨hmem, by simp [Nat.not_lt.mpr hexp]⟩
      cases hfind : List.find?
          (fun g => holdKeyMatch g hospital depN doctor date slot)
          (sweep_holds st.holds now) with
      | none =>
        exact absurd hkey (List.find?_eq_none.mp hfind h hmem1)
      | some h2 =>
        have hp2 := List.find?_some hfind
        have hmem2 : h2 ∈ sweep_holds st.holds now :=
          List.mem_of_find?_eq_some hfind
        have hmem2st : h2 ∈ st.holds := by
          have h3 := hmem2
          simp only [sweep_holds, List.mem_filter] at h3
          exact h3.1
        have heq2 : h2 = h := hwf h2 hmem2st h hmem hp2 hkey
        simp only [heq2, hsess, ne_eq, hne, not_false_eq_true, ite_true]
        exact ⟨trivial, Or.inl trivial⟩
    · exact absurd (List.any_eq_true.mpr ⟨b, hbmem, hbkey⟩) hb

/-- C1 (amended, witness): on the concrete catalog, S2's `create_hold` against
S1's live hold under the same display name `Khoa A` is rejected. -/
theorem create_hold_conflict_same_department_witness :
    (create_hold catTwoDepts stHeld "H1" "Khoa A" "Bs X" "D" 480 "S2" 300 none
        0).2.1 = false ∧
    ((create_hold catTwoDepts stHeld "H1" "Khoa A" "Bs X" "D" 480 "S2" 300 none
        0).2.2 = "held_by_other" ∨
     (create_hold catTwoDepts stHeld "H1" "Khoa A" "Bs X" "D" 480 "S2" 300 none
        0).2.2 = "already_booked") :=
  create_hold_conflict_same_department catTwoDepts stHeld "H1" "Khoa A" "Bs X"
    "D" 480 "S1" "S2" 300 none 0 (by decide) (by decide) (by decide)
    (by decide) (by decide)

/-- C2 (amended): when `promote_hold_to_booking` succeeds it has verified a
live hold owned by the session, inserted the booking, and deleted the hold in
the same transaction: afterwards no hold row remains for the
department-qualified key and exactly one booking row exists for
`(hospital, doctor, date, slot)`.  On failure it returns one of `no_hold`,
`held_by_other`, `hold_expired` or `already_booked`; on `hold_expired` the
stale owned hold is deleted. -/
theorem promote_hold_spec (st : Store)
    (sid hospital department doctor date : String) (slot : Nat)
    (dcode : Option String) (now : Nat) (st1 : Store) (ok : Bool) (msg : String)
    (heq : promote_hold_to_booking st sid hospital department doctor date slot
      dcode now = (st1, ok, msg)) :
    (ok = true → msg = "booked" ∧
      (∃ h ∈ st.holds,
        holdKeyMatch h hospital (_normalize_department department) doctor date
          slot = true ∧ h.sessionId = sid ∧ ¬ h.expiresAt < now) ∧
      (∃ code, st1.bookings = st.bookings ++
        [⟨hospital, _normalize_department department, doctor, date, slot, code⟩]) ∧
      st1.holds = st.holds.filter (fun g =>
        !holdKeyMatch g hospital (_normalize_department department) doctor date
          slot) ∧
      st1.holds.filter (fun g =>
        holdKeyMatch g hospital (_normalize_department department) doctor date
          slot) = [] ∧
      (st1.bookings.filter (fun b =>
        bookingKeyMatch b hospital doctor date slot)).length = 1) ∧
    (ok = false → msg = "no_hold" ∨ msg = "held_by_other" ∨
      msg = "hold_expired" ∨ msg = "already_booked") ∧
    (msg = "hold_expired" →
      (∃ h ∈ st.holds,
        holdKeyMatch h hospital (_normalize_department department) doctor date
          slot = true ∧ h.sessionId = sid ∧ h.expiresAt < now) ∧
      st1.holds = st.holds.filter (fun g =>
        !holdKeyMatch g hospital (_normalize_department department) doctor date
          slot)) := by
  unfold promote_hold_to_booking at heq
  set depN := _normalize_department department with hdepN
  dsimp only at heq
  cases hfind : List.find? (fun h => holdKeyMatch h hospital depN doctor date slot)
      st.holds with
  | none =>
    rw [hfind] at heq
    cases heq
    refine ⟨fun hok => by simp at hok, fun _ => Or.inl rfl, fun hmsg => ?_⟩
    exact absurd hmsg (by decide)
  | some h =>
    rw [hfind] at heq
    have hkey := List.find?_some hfind
    have hmem := List.mem_of_find?_eq_some hfind
    dsimp only at heq
    split at heq
    · cases heq
      refine ⟨fun hok => by simp at hok, fun _ => Or.inr (Or.inl rfl),
        fun hmsg => absurd hmsg (by decide)⟩
    · rename_i hsid
      have hsid2 : h.sessionId = sid := not_not.mp hsid
      split at heq
      · rename_i hexp
        cases heq
        refine ⟨fun hok => by simp at hok,
          fun _ => Or.inr (Or.inr (Or.inl rfl)), fun _ => ?_⟩
        exact ⟨⟨h, hmem, hkey, hsid2, hexp⟩, rfl⟩
      · rename_i hexp
        split at heq
        · cases heq
          refine ⟨fun hok => by simp at hok,
            fun _ => Or.inr (Or.inr (Or.inr rfl)),
            fun hmsg => absurd hmsg (by decide)⟩
        · rename_i hb
          cases heq
          refine ⟨fun _ => ?_, fun hok => by simp at hok,
            fun hmsg => absurd hmsg (by decide)⟩
          refine ⟨rfl, ⟨h, hmem, hkey, hsid2, hexp⟩, ⟨_, rfl⟩, rfl, ?_, ?_⟩
          · rw [List.filter_filter]
            simp
          · have hbf : ∀ b ∈ st.bookings,
                ¬ bookingKeyMatch b hospital doctor date slot = true := by
              intro b hbm hbk
              exact hb (List.any_eq_true.mpr ⟨b, hbm, hbk⟩)
            rw [List.filter_append, List.filter_eq_nil_iff.mpr hbf]
            simp [bookingKeyMatch]

/-- C2 (amended, witness): promoting S1's live hold on the concrete store
leaves exactly one booking row for `(H1, Bs X, D, 08:00)`. -/
theorem promote_hold_spec_witness :
    ((promote_hold_to_booking stHeld "S1" "H1" "Khoa A" "Bs X" "D" 480 none
        100).1.bookings.filter
      (fun b => bookingKeyMatch b "H1" "Bs X" "D" 480)).length = 1 := by
  have h := promote_hold_spec stHeld "S1" "H1" "Khoa A" "Bs X" "D" 480 none 100
    (promote_hold_to_booking stHeld "S1" "H1" "Khoa A" "Bs X" "D" 480 none 100).1
    (promote_hold_to_booking stHeld "S1" "H1" "Khoa A" "Bs X" "D" 480 none 100).2.1
    (promote_hold_to_booking stHeld "S1" "H1" "Khoa A" "Bs X" "D" 480 none 100).2.2
    rfl
  exact (h.1 (by decide)).2.2.2.2.2

/-- C5 (amended): once `create_hold` passes its slot and doctor validation, it
deletes every hold with `expires_at` strictly below `now` before anything
else, so every hold in the resulting store (survivors and the new upsert)
satisfies `now ≤ expires_at`; a hold with `expires_at = now` survives.
`promote_hold_to_booking` performs no sweep: every hold not matching the
addressed department-qualified key survives it unconditionally. -/
theorem hold_sweep_semantics :
    (∀ (cat : Catalog) (st : Store) (hospital department doctor date : String)
      (slot : Nat) (sid : String) (ttl : Nat) (dcode : Option String) (now : Nat),
      slot ∈ ALL_SLOTS →
      doctor_ok cat hospital (_normalize_department department) doctor dcode = true →
      ∀ h ∈ (create_hold cat st hospital department doctor date slot sid ttl
        dcode now).1.holds, now ≤ h.expiresAt) ∧
    (∀ (st : Store) (sid hospital department doctor date : String) (slot : Nat)
      (dcode : Option String) (now : Nat) (h : HoldRow), h ∈ st.holds →
      holdKeyMatch h hospital (_normalize_department department) doctor date
        slot = false →
      h ∈ (promote_hold_to_booking st sid hospital department doctor date slot
        dcode now).1.holds) := by
  constructor
  · intro cat st hospital department doctor date slot sid ttl dcode now hslot
      hdoc h hmem
    have hsweep : ∀ g ∈ sweep_holds st.holds now, now ≤ g.expiresAt := by
      intro g hg
      have h2 := (List.mem_filter.mp hg).2
      simp only [Bool.not_eq_true', decide_eq_false_iff_not, Nat.not_lt] at h2
      exact h2
    unfold create_hold at hmem
    simp only [hslot, not_true_eq_false, if_false, hdoc, Bool.not_true,
      Bool.false_eq_true, ite_false, if_neg] at hmem
    split at hmem
    · exact hsweep h hmem
    · split at hmem
      · split at hmem
        · exact hsweep h hmem
        · rcases List.mem_append.mp hmem with hin | hin
          · exact hsweep h (List.mem_of_mem_filter hin)
          · simp only [List.mem_singleton] at hin
            subst hin
            exact Nat.le_add_right now _
      · rcases List.mem_append.mp hmem with hin | hin
        · exact hsweep h (List.mem_of_mem_filter hin)
        · simp only [List.mem_singleton] at hin
          subst hin
          exact Nat.le_add_right now _
  · intro st sid hospital department doctor date slot dcode now h hmem hkey
    unfold promote_hold_to_booking
    dsimp only
    cases hfind : List.find?
        (fun g => holdKeyMatch g hospital (_normalize_department department)
          doctor date slot) st.holds with
    | none => exact hmem
    | some g =>
      dsimp only
      split
      · exact hmem
      · split
        · exact List.mem_filter.mpr ⟨hmem, by simp [hkey]⟩
        · split
          · exact hmem
          · exact List.mem_filter.mpr ⟨hmem, by simp [hkey]⟩

/-- C5 (amended, witness): after the concrete `create_hold` at `now = 100`,
the freshly inserted hold carries `expires_at = 400 ≥ 100`. -/
theorem hold_sweep_semantics_witness :
    (100 : Nat) ≤
      (⟨"H1", "Khoa A", "Bs X", "D", 500, "S2", 100, 400, none⟩ : HoldRow).expiresAt :=
  hold_sweep_semantics.1 catTwoDepts stEq "H1" "Khoa A" "Bs X" "D" 500 "S2" 300
    none 100 (by decide) (by decide)
    ⟨"H1", "Khoa A", "Bs X", "D", 500, "S2", 100, 400, none⟩ (by decide)

/-- Helper: membership in the modelled blocked snapshot is exactly a confirmed
booking or a live hold for `(hospital, code, doctor, date)` at that slot. -/
theorem mem_blocked_slots_for (st : Store) (hosp code doctor date : String)
    (now s : Nat) :
    s ∈ blocked_slots_for st hosp code doctor date now ↔
      (∃ b ∈ st.bookings, b.hospital = hosp ∧ b.deptCode = some code ∧
        b.doctor = doctor ∧ b.date = date ∧ b.slot = s) ∨
      (∃ h ∈ st.holds, h.hospital = hosp ∧ h.deptCode = some code ∧
        h.doctor = doctor ∧ h.date = date ∧ ¬ h.expiresAt < now ∧
        h.slot = s) := by
  simp only [blocked_slots_for, List.mem_append, List.mem_map, List.mem_filter,
    Bool.and_eq_true, beq_iff_eq, Bool.not_eq_true', decide_eq_false_iff_not]
  aesop

/-- C3: in every Stage-2 schedule document, every doctor entry's free slots
are exactly `ALLOWED_SLOTS` minus the blocked snapshot (the union of confirmed
bookings and live holds for that hospital, department code, doctor and date);
and every roster doctor of every selected code present in a discovered
hospital's catalog is offered exactly that free-slot list. -/
theorem gather_schedule_free_slots (cat : Catalog) (st : Store)
    (hcs selected : List String) (date : String) (now : Nat) :
    (∀ he ∈ _gather_schedule cat st hcs selected date now,
      ∀ de ∈ he.departments, ∀ doce ∈ de.doctors,
        doce.free_slots = ALL_SLOTS.filter (fun s =>
          !((blocked_slots_for st he.hospital_code de.department_code doce.name
            date now).contains s)) ∧
        (∀ s : Nat, s ∈ doce.free_slots ↔ s ∈ ALL_SLOTS ∧
          ¬ ((∃ b ∈ st.bookings, b.hospital = he.hospital_code ∧
              b.deptCode = some de.department_code ∧ b.doctor = doce.name ∧
              b.date = date ∧ b.slot = s) ∨
            (∃ h ∈ st.holds, h.hospital = he.hospital_code ∧
              h.deptCode = some de.department_code ∧ h.doctor = doce.name ∧
              h.date = date ∧ ¬ h.expiresAt < now ∧ h.slot = s)))) ∧
    (∀ hosp ∈ hcs, ∀ meta, cat hosp = some meta →
      meta.departments_by_code.isEmpty = false →
      ∀ code ∈ selected, ∀ info,
        alistGet meta.departments_by_code code = some info →
      ∀ doctor ∈ info.doctors,
        ∃ he ∈ _gather_schedule cat st hcs selected date now,
          he.hospital_code = hosp ∧
          ∃ de ∈ he.departments, de.department_code = code ∧
          ∃ doce ∈ de.doctors, doce.name = doctor ∧
            doce.free_slots = ALL_SLOTS.filter (fun s =>
              !((blocked_slots_for st hosp code doctor date now).contains s))) := by
  have hchar : ∀ (hosp code doctor : String),
      ∀ s : Nat, s ∈ (gather_doc_entry st hosp code date now doctor).free_slots ↔
        s ∈ ALL_SLOTS ∧ ¬ s ∈ blocked_slots_for st hosp code doctor date now := by
    intro hosp code doctor s
    simp [gather_doc_entry, List.mem_filter]
  constructor
  · intro he hhe de hde doce hdoce
    obtain ⟨hosp, _hhosp, hf⟩ := List.mem_filterMap.mp hhe
    cases hcat : cat hosp with
    | none => rw [hcat] at hf; exact absurd hf (by simp)
    | some meta =>
      rw [hcat] at hf
      dsimp only at hf
      split at hf
      · exact absurd hf (by simp)
      · split at hf
        · exact absurd hf (by simp)
        · injection hf with hf1
          subst hf1
          obtain ⟨code, _hcode, hf2⟩ := List.mem_filterMap.mp hde
          cases hinfo : alistGet meta.departments_by_code code with
          | none => rw [hinfo] at hf2; exact absurd hf2 (by simp)
          | some info =>
            rw [hinfo] at hf2
            dsimp only at hf2
            injection hf2 with hf3
            subst hf3
            obtain ⟨doctor, _hdoc, rfl⟩ := List.mem_map.mp hdoce
            refine ⟨rfl, ?_⟩
            intro s
            rw [hchar hosp code doctor s, mem_blocked_slots_for]
            exact Iff.rfl
  · intro hosp hhosp meta hcat hne code hcode info hinfo doctor hdoctor
    have hdep : (⟨code,
        _clean_display_name (if info.name ≠ "" then info.name else code),
        info.doctors.map (gather_doc_entry st hosp code date now)⟩ : DepEntry) ∈
        selected.filterMap (fun code =>
          match alistGet meta.departments_by_code code with
          | none => none
          | some info =>
            some ⟨code,
              _clean_display_name (if info.name ≠ "" then info.name else code),
              info.doctors.map (gather_doc_entry st hosp code date now)⟩) := by
      apply List.mem_filterMap.mpr
      exact ⟨code, hcode, by rw [hinfo]⟩
    refine ⟨⟨hosp, selected.filterMap (fun code =>
        match alistGet meta.departments_by_code code with
        | none => none
        | some info =>
          some ⟨code,
            _clean_display_name (if info.name ≠ "" then info.name else code),
            info.doctors.map (gather_doc_entry st hosp code date now)⟩)⟩,
      ?_, rfl, ?_⟩
    · apply List.mem_filterMap.mpr
      refine ⟨hosp, hhosp, ?_⟩
      rw [hcat]
      dsimp only
      rw [if_neg (by simp [hne]), if_neg ?hne2]
      case hne2 =>
        intro hempty
        rw [List.isEmpty_iff.mp hempty] at hdep
        exact absurd hdep (List.not_mem_nil _)
    · refine ⟨⟨code,
          _clean_display_name (if info.name ≠ "" then info.name else code),
          info.doctors.map (gather_doc_entry st hosp code date now)⟩,
        hdep, rfl, ?_⟩
      exact ⟨gather_doc_entry st hosp code date now doctor,
        List.mem_map.mpr ⟨doctor, hdoctor, rfl⟩, rfl, rfl⟩

/-- C3 (witness): on the coded catalog and the store with one booking and one
live hold, the schedule document offers doctor `Bs X` exactly the allowed grid
minus the blocked snapshot. -/
theorem gather_schedule_free_slots_witness :
    ∃ he ∈ _gather_schedule catCoded stBlocked ["H1"] ["KA"] "D" 100,
      he.hospital_code = "H1" ∧
      ∃ de ∈ he.departments, de.department_code = "KA" ∧
      ∃ doce ∈ de.doctors, doce.name = "Bs X" ∧
        doce.free_slots = ALL_SLOTS.filter (fun s =>
          !((blocked_slots_for stBlocked "H1" "KA" "Bs X" "D" 100).contains s)) :=
  (gather_schedule_free_slots catCoded stBlocked ["H1"] ["KA"] "D" 100).2
    "H1" (by decide) ⟨[("Khoa A", ["Bs X"])], [("KA", ⟨"Khoa A", ["Bs X"]⟩)]⟩
    rfl (by decide) "KA" (by decide) ⟨"Khoa A", ["Bs X"]⟩ (by decide)
    "Bs X" (by decide)

/-- C7 (amended): every option surviving Stage-2 sanitisation carries a
hospital code, department code and doctor that are present in the schedule
document's allowed maps, and — whenever its slot token is non-empty — a slot
present in the free-slot map (an empty slot token skips the free-slot check);
a `chosen` not among the survivors is reassigned to the first survivor or to
`none`, and when nothing survives `chosen` becomes `none`. -/
theorem sanitize_stage2_spec (sched : Sched)
    (dim : List (String × List (String × String)))
    (options : List Opt) (chosen : Option Opt) :
    (∀ o ∈ (_sanitize_stage2_options sched dim options chosen).1,
      ∃ hosp dep_map dcode entry doc,
        o.hospital_code = some hosp ∧
        lastAssoc (hospAllowed sched) hosp = some dep_map ∧
        o.department_code = some dcode ∧
        lastAssoc dep_map dcode = some entry ∧
        o.doctor_name = some doc ∧ doc ∈ entry.doctors ∧
        (slotTok o.slot_time ≠ "" →
          slotTok o.slot_time ∈
            (lastAssoc (freeTriples sched) (some hosp, dcode, doc)).getD [])) ∧
    (match chosen with
     | none => (_sanitize_stage2_options sched dim options chosen).2 = none
     | some c =>
        (c ∈ (_sanitize_stage2_options sched dim options chosen).1 →
          (_sanitize_stage2_options sched dim options chosen).2 = some c) ∧
        (c ∉ (_sanitize_stage2_options sched dim options chosen).1 →
          (_sanitize_stage2_options sched dim options chosen).2 =
            (_sanitize_stage2_options sched dim options chosen).1.head?)) ∧
    ((_sanitize_stage2_options sched dim options chosen).1 = [] →
      (_sanitize_stage2_options sched dim options chosen).2 = none) := by
  refine ⟨?_, ?_, ?_⟩
  · intro o ho
    obtain ⟨o0, _ho0, hs⟩ :=
      List.mem_filterMap.mp (ho : o ∈ options.filterMap (sanitizeOne sched dim))
    unfold sanitizeOne at hs
    dsimp only at hs
    split at hs
    · exact absurd hs (by simp)
    · rename_i hosp hhosp
      split at hs
      · exact absurd hs (by simp)
      · rename_i dep_map hda
        split at hs
        · exact absurd hs (by simp)
        · rename_i dep_code hdc
          split at hs
          · exact absurd hs (by simp)
          · rename_i entry hde
            split at hs
            · exact absurd hs (by simp)
            · rename_i doc hdn
              split at hs
              · exact absurd hs (by simp)
              · rename_i hdoc
                split at hs
                · exact absurd hs (by simp)
                · rename_i hslot
                  injection hs with hs1
                  have hdoc2 : doc ∈ entry.doctors := not_not.mp hdoc
                  have hslot2 : slotTok o0.slot_time ≠ "" →
                      slotTok o0.slot_time ∈
                        (lastAssoc (freeTriples sched)
                          (some hosp, dep_code, doc)).getD [] := by
                    intro hne
                    by_contra hni
                    exact hslot ⟨hne, hni⟩
                  have hhc : o.hospital_code = some hosp := by
                    rw [← hs1]; repeat' split
                    all_goals rfl
                  have hdcf : o.department_code = some dep_code := by
                    rw [← hs1]; repeat' split
                    all_goals rfl
                  have hdnf : o.doctor_name = some doc := by
                    rw [← hs1]
                    have hx : o0.doctor_name = some doc := hdn
                    repeat' split
                    all_goals exact hx
                  have hslf : o.slot_time = o0.slot_time := by
                    rw [← hs1]; repeat' split
                    all_goals rfl
                  refine ⟨hosp, dep_map, dep_code, entry, doc,
                    hhc, hda, hdcf, hde, hdnf, hdoc2, ?_⟩
                  rw [hslf]
                  exact hslot2
  · cases chosen with
    | none => rfl
    | some c =>
      constructor
      · intro hin
        have hin2 : c ∈ options.filterMap (sanitizeOne sched dim) := hin
        show (if c ∉ options.filterMap (sanitizeOne sched dim) then
          (options.filterMap (sanitizeOne sched dim)).head? else some c) = some c
        rw [if_neg (not_not_intro hin2)]
      · intro hout
        have hout2 : c ∉ options.filterMap (sanitizeOne sched dim) := hout
        show (if c ∉ options.filterMap (sanitizeOne sched dim) then
          (options.filterMap (sanitizeOne sched dim)).head? else some c) =
          (_sanitize_stage2_options sched dim options (some c)).1.head?
        rw [if_pos hout2]
        rfl
  · intro hnil
    cases chosen with
    | none => rfl
    | some c =>
      have hnil2 : options.filterMap (sanitizeOne sched dim) = [] := hnil
      show (if c ∉ options.filterMap (sanitizeOne sched dim) then
        (options.filterMap (sanitizeOne sched dim)).head? else some c) = none
      rw [hnil2]
      simp

/-- C7 (amended, witness): the valid option for the concrete schedule document
survives sanitisation with its hospital, department code, doctor and slot all
present in the allowed and free-slot maps. -/
theorem sanitize_stage2_spec_witness :
    ∃ hosp dep_map dcode entry doc,
      (⟨some "BV 1", some "H1", some "Kham Benh", some "KB", some "Bs A",
        some "2025-01-15 08:00"⟩ : Opt).hospital_code = some hosp ∧
      lastAssoc (hospAllowed schedCE) hosp = some dep_map ∧
      (⟨some "BV 1", some "H1", some "Kham Benh", some "KB", some "Bs A",
        some "2025-01-15 08:00"⟩ : Opt).department_code = some dcode ∧
      lastAssoc dep_map dcode = some entry ∧
      (⟨some "BV 1", some "H1", some "Kham Benh", some "KB", some "Bs A",
        some "2025-01-15 08:00"⟩ : Opt).doctor_name = some doc ∧
      doc ∈ entry.doctors ∧
      (slotTok (⟨some "BV 1", some "H1", some "Kham Benh", some "KB",
          some "Bs A", some "2025-01-15 08:00"⟩ : Opt).slot_time ≠ "" →
        slotTok (⟨some "BV 1", some "H1", some "Kham Benh", some "KB",
          some "Bs A", some "2025-01-15 08:00"⟩ : Opt).slot_time ∈
          (lastAssoc (freeTriples schedCE) (some hosp, dcode, doc)).getD []) :=
  (sanitize_stage2_spec schedCE [] [optGood] (some optGood)).1
    ⟨some "BV 1", some "H1", some "Kham Benh", some "KB", some "Bs A",
      some "2025-01-15 08:00"⟩ (by decide)

/-- Helper: the slot grid is strictly increasing. -/
theorem all_slots_chain : List.Chain' (· < ·) ALL_SLOTS :=
  List.chain'_iff_pairwise.mpr (by decide)

/-- Helper: every grid slot start is a multiple of 20 minutes. -/
theorem all_slots_div : ∀ m ∈ ALL_SLOTS, m % 20 = 0 := by decide

/-- Helper: inserting below the head of a sorted list is a cons. -/
theorem insertSorted_of_head (x : Nat) (l : List Nat)
    (h : List.Chain' (· ≤ ·) (x :: l)) : insertSorted x l = x :: l := by
  cases l with
  | nil => rfl
  | cons y ys =>
    have hxy : x ≤ y := (List.chain'_cons.mp h).1
    simp [insertSorted, hxy]

/-- Helper: the sort is the identity on a sorted list. -/
theorem pySortNat_eq_self (l : List Nat) (h : List.Chain' (· ≤ ·) l) :
    pySortNat l = l := by
  induction l with
  | nil => rfl
  | cons x xs ih =>
    have htail : List.Chain' (· ≤ ·) xs := h.tail
    simp only [pySortNat, ih htail]
    exact insertSorted_of_head x xs h

/-- Helper: specification of the compression loop on a strictly increasing
suffix, relative to the full free list `l0`. -/
theorem compressAux_spec (l0 : List Nat) (hdiv : ∀ x ∈ l0, x % 20 = 0)
    (rest : List Nat) (start prev : Nat)
    (hstart : start ∈ l0) (hprev : prev ∈ l0)
    (hrun : ∀ m, m % 20 = 0 → start ≤ m → m ≤ prev → m ∈ l0)
    (hrest : ∀ x ∈ rest, x ∈ l0)
    (hchain : List.Chain' (· < ·) (prev :: rest))
    (hbound : ∀ x ∈ l0, x ≤ prev ∨ x ∈ rest) :
    ∀ ab ∈ compressAux start prev rest,
      ab.1 ∈ l0 ∧ ab.2 ∈ l0 ∧ (ab.2 + SLOT_MINUTES) ∉ l0 ∧
      ∀ m, m % 20 = 0 → ab.1 ≤ m → m ≤ ab.2 → m ∈ l0 := by
  have hSM : SLOT_MINUTES = 20 := rfl
  induction rest generalizing start prev with
  | nil =>
    intro ab hab
    simp only [compressAux, List.mem_singleton] at hab
    subst hab
    refine ⟨hstart, hprev, ?_, hrun⟩
    intro hmem
    rcases hbound _ hmem with hle | hin
    · omega
    · exact absurd hin (List.not_mem_nil _)
  | cons s rest2 ih =>
    intro ab hab
    simp only [compressAux] at hab
    have hps : prev < s := (List.chain'_cons.mp hchain).1
    have hchain2 : List.Chain' (· < ·) (s :: rest2) := (List.chain'_cons.mp hchain).2
    have hsl0 : s ∈ l0 := hrest s (List.mem_cons_self s rest2)
    have hsdiv : s % 20 = 0 := hdiv s hsl0
    have hpdiv : prev % 20 = 0 := hdiv prev hprev
    by_cases hd : s - prev = SLOT_MINUTES
    · rw [if_pos hd] at hab
      have hs20 : s = prev + 20 := by omega
      refine ih start s hstart hsl0 ?_ (fun x hx => hrest x (List.mem_cons_of_mem s hx))
        hchain2 ?_ ab hab
      · intro m hm h1 h2
        by_cases hmp : m ≤ prev
        · exact hrun m hm h1 hmp
        · have : m = s := by omega
          rw [this]; exact hsl0
      · intro x hx
        rcases hbound x hx with h1 | h1
        · exact Or.inl (by omega)
        · rcases List.mem_cons.mp h1 with h2 | h2
          · exact Or.inl (by omega)
          · exact Or.inr h2
    · rw [if_neg hd] at hab
      have hsge : prev + 40 ≤ s := by omega
      have hgt : ∀ x ∈ rest2, s < x :=
        (List.pairwise_cons.mp (List.chain'_iff_pairwise.mp hchain2)).1
      rcases List.mem_cons.mp hab with hab1 | hab2
      · subst hab1
        refine ⟨hstart, hprev, ?_, hrun⟩
        intro hmem
        rcases hbound _ hmem with hle | hin
        · omega
        · rcases List.mem_cons.mp hin with h2 | h2
          · omega
          · have := hgt _ h2
            omega
      · refine ih s s hsl0 hsl0 ?_ (fun x hx => hrest x (List.mem_cons_of_mem s hx))
          hchain2 ?_ ab hab2
        · intro m hm h1 h2
          have : m = s := by omega
          rw [this]; exact hsl0
        · intro x hx
          rcases hbound x hx with h1 | h1
          · exact Or.inl (by omega)
          · rcases List.mem_cons.mp h1 with h2 | h2
            · exact Or.inl (by omega)
            · exact Or.inr h2

/-- C8: in every availability result, each `(start, end)` entry of
`free_intervals` has both endpoints in `free_slots` (so `end` is the last free
slot start of a contiguous run, not its finish), the next grid step after
`end` is not free, and every grid time between `start` and `end` inclusive is
a member of `free_slots`. -/
theorem free_intervals_spec (booked : List Nat) :
    ∀ ab ∈ (_compute_availability booked).free_intervals,
      ab.1 ∈ (_compute_availability booked).free_slots ∧
      ab.2 ∈ (_compute_availability booked).free_slots ∧
      (ab.2 + SLOT_MINUTES) ∉ (_compute_availability booked).free_slots ∧
      ∀ m ∈ ALL_SLOTS, ab.1 ≤ m → m ≤ ab.2 →
        m ∈ (_compute_availability booked).free_slots := by
  intro ab hab
  have hchain : List.Chain' (· < ·)
      (ALL_SLOTS.filter (fun s => !(booked.contains s))) :=
    all_slots_chain.sublist (List.filter_sublist _)
  have hdiv : ∀ x ∈ ALL_SLOTS.filter (fun s => !(booked.contains s)),
      x % 20 = 0 :=
    fun x hx => all_slots_div x (List.mem_of_mem_filter hx)
  have hsorted : pySortNat (ALL_SLOTS.filter (fun s => !(booked.contains s)))
      = ALL_SLOTS.filter (fun s => !(booked.contains s)) :=
    pySortNat_eq_self _ (hchain.imp fun a b => le_of_lt)
  have hab2 : ab ∈ _compress_free_slots
      (ALL_SLOTS.filter (fun s => !(booked.contains s))) := hab
  unfold _compress_free_slots at hab2
  rw [hsorted] at hab2
  suffices h : ab.1 ∈ ALL_SLOTS.filter (fun s => !(booked.contains s)) ∧
      ab.2 ∈ ALL_SLOTS.filter (fun s => !(booked.contains s)) ∧
      (ab.2 + SLOT_MINUTES) ∉ ALL_SLOTS.filter (fun s => !(booked.contains s)) ∧
      ∀ m ∈ ALL_SLOTS, ab.1 ≤ m → m ≤ ab.2 →
        m ∈ ALL_SLOTS.filter (fun s => !(booked.contains s)) by
    exact h
  cases hfree2 : ALL_SLOTS.filter (fun s => !(booked.contains s)) with
  | nil => rw [hfree2] at hab2; simp at hab2
  | cons x rest =>
    rw [hfree2] at hab2
    rw [hfree2] at hchain hdiv
    have hx0 : x ∈ x :: rest := List.mem_cons_self x rest
    have hmain := compressAux_spec (x :: rest) hdiv rest x x hx0 hx0
      (fun m _ h1 h2 => by
        have : m = x := Nat.le_antisymm h2 h1
        rw [this]; exact hx0)
      (fun y hy => List.mem_cons_of_mem x hy) hchain
      (fun y hy => by
        rcases List.mem_cons.mp hy with h1 | h1
        · exact Or.inl (le_of_eq h1)
        · exact Or.inr h1)
      ab hab2
    exact ⟨hmain.1, hmain.2.1, hmain.2.2.1,
      fun m hm h1 h2 => hmain.2.2.2 m (all_slots_div m hm) h1 h2⟩

/-- C8 (witness): with slot 08:20 booked, the interval `(07:40, 08:00)` of the
availability result has free endpoints, a blocked successor step, and every
grid time inside it free. -/
theorem free_intervals_spec_witness :
    (460, 480).1 ∈ (_compute_availability [500]).free_slots ∧
    (460, 480).2 ∈ (_compute_availability [500]).free_slots ∧
    ((460, 480).2 + SLOT_MINUTES) ∉ (_compute_availability [500]).free_slots ∧
    ∀ m ∈ ALL_SLOTS, (460, 480).1 ≤ m → m ≤ (460, 480).2 →
      m ∈ (_compute_availability [500]).free_slots :=
  free_intervals_spec [500] (460, 480) (by decide)

/-- Helper: `find?` commutes with a map that preserves the predicate. -/
theorem find?_map_pred {α : Type} (f : α → α) (p : α → Bool) (l : List α)
    (hp : ∀ x, p (f x) = p x) :
    (l.map f).find? p = (l.find? p).map f := by
  induction l with
  | nil => rfl
  | cons a t ih =>
    simp only [List.map_cons]
    cases hpa : p a with
    | true =>
      rw [List.find?_cons_of_pos _ (by rw [hp a]; exact hpa),
        List.find?_cons_of_pos _ hpa]
      rfl
    | false =>
      rw [List.find?_cons_of_neg _ (by simp [hp a, hpa]),
        List.find?_cons_of_neg _ (by simp [hpa])]
      exact ih

/-- Helper: a digit-free phone string normalises to the sentinel. -/
theorem norm_digitless (s : String) (h : ∀ c ∈ s.data, c.isDigit = false) :
    _normalize_phone s = "unknown" := by
  unfold _normalize_phone
  have hf : s.data.filter (fun c => c.isDigit) = [] :=
    List.filter_eq_nil_iff.mpr (fun c hc => by rw [h c hc]; exact Bool.false_ne_true)
  rw [hf]
  rfl

set_option maxRecDepth 4000 in
/-- C10: any two digit-free phone strings (including the empty string)
normalise to `"unknown"` and derive the same deterministic customer id,
`CUS-` plus the first 10 hex characters of `sha1("unknown")`; two successive
`get_or_create_customer` calls with such phones return that same id, the
second call finds the record instead of creating one, and both calls update
the single shared record's stored name. -/
theorem digitless_phone_shared_customer (s1 s2 name1 name2 : String)
    (db : List Customer)
    (h1 : ∀ c ∈ s1.data, c.isDigit = false)
    (h2 : ∀ c ∈ s2.data, c.isDigit = false)
    (hwf : ∀ c1 ∈ db, ∀ c2 ∈ db, c1.phone = c2.phone → c1 = c2) :
    _normalize_phone s1 = "unknown" ∧
    _stable_id_from_phone s1 = _stable_id_from_phone s2 ∧
    _stable_id_from_phone s1 =
      "CUS-" ++ String.mk ((sha1Hex (utf8Bytes "unknown")).data.take 10) ∧
    (get_or_create_customer (get_or_create_customer db name1 s1).1 name2
      s2).2.1 = (get_or_create_customer db name1 s1).2.1 ∧
    (get_or_create_customer (get_or_create_customer db name1 s1).1 name2
      s2).2.2 = false ∧
    (∃ c ∈ (get_or_create_customer (get_or_create_customer db name1 s1).1
      name2 s2).1, c.phone = "unknown") ∧
    (∀ c ∈ (get_or_create_customer (get_or_create_customer db name1 s1).1
      name2 s2).1, c.phone = "unknown" →
        c.name = name2 ∧ c.id = (get_or_create_customer db name1 s1).2.1) := by
  have hn1 : _normalize_phone s1 = "unknown" := norm_digitless s1 h1
  have hn2 : _normalize_phone s2 = "unknown" := norm_digitless s2 h2
  have hid1 : _stable_id_from_phone s1 =
      "CUS-" ++ String.mk ((sha1Hex (utf8Bytes "unknown")).data.take 10) := by
    unfold _stable_id_from_phone
    rw [hn1]
  have hid2 : _stable_id_from_phone s2 =
      "CUS-" ++ String.mk ((sha1Hex (utf8Bytes "unknown")).data.take 10) := by
    unfold _stable_id_from_phone
    rw [hn2]
  refine ⟨hn1, hid1.trans hid2.symm, hid1, ?_⟩
  cases hfind : db.find? (fun c : Customer => c.phone == "unknown") with
  | some c0 =>
    have hc0mem : c0 ∈ db := List.mem_of_find?_eq_some hfind
    have hc0phone : c0.phone = "unknown" := by
      have := List.find?_some hfind
      exact beq_iff_eq.mp this
    have hg1 : get_or_create_customer db name1 s1 =
        (db.map (fun r : Customer => if r.id == c0.id then { r with name := name1 } else r),
          c0.id, false) := by
      unfold get_or_create_customer
      rw [hn1]
      dsimp only
      rw [hfind]
    have hpres1 : ∀ r : Customer,
        ((fun r : Customer => if r.id == c0.id then { r with name := name1 } else r)
          r).phone = r.phone := by
      intro r
      dsimp only
      split <;> rfl
    have hfind2 : (db.map (fun r : Customer => if r.id == c0.id then
        { r with name := name1 } else r)).find? (fun c : Customer => c.phone == "unknown")
        = some (if c0.id == c0.id then { c0 with name := name1 } else c0) := by
      rw [find?_map_pred _ _ _ (fun x => by rw [hpres1 x]), hfind]
      rfl
    have hupd : (if c0.id == c0.id then { c0 with name := name1 } else c0)
        = { c0 with name := name1 } := by simp
    have hg2 : get_or_create_customer (get_or_create_customer db name1 s1).1
        name2 s2 =
        ((db.map (fun r : Customer => if r.id == c0.id then { r with name := name1 }
            else r)).map (fun r : Customer => if r.id == c0.id then
            { r with name := name2 } else r),
          c0.id, false) := by
      rw [hg1]
      unfold get_or_create_customer
      rw [hn2]
      dsimp only
      rw [hfind2, hupd]
    rw [hg2, hg1]
    refine ⟨rfl, rfl, ?_, ?_⟩
    · refine ⟨(fun r : Customer => if r.id == c0.id then { r with name := name2 } else r)
        ((fun r : Customer => if r.id == c0.id then { r with name := name1 } else r) c0),
        List.mem_map_of_mem _ (List.mem_map_of_mem _ hc0mem), ?_⟩
      simp [hc0phone]
    · intro c hc hcp
      obtain ⟨y, hy, rfl⟩ := List.mem_map.mp hc
      obtain ⟨x, hx, rfl⟩ := List.mem_map.mp hy
      have hxphone : x.phone = "unknown" := by
        have hp2 : ∀ r : Customer,
            ((fun r : Customer => if r.id == c0.id then { r with name := name2 } else r)
              r).phone = r.phone := by
          intro r
          dsimp only
          split <;> rfl
        rw [hp2, hpres1] at hcp
        exact hcp
      have hxc0 : x = c0 := hwf x hx c0 hc0mem (by rw [hxphone, hc0phone])
      subst hxc0
      simp
  | none =>
    have hnone : ∀ x ∈ db, ¬ (x.phone == "unknown") = true :=
      List.find?_eq_none.mp hfind
    have hg1 : get_or_create_customer db name1 s1 =
        (db.filter (fun r : Customer => r.id != _stable_id_from_phone "unknown" &&
            r.phone != "unknown") ++
          [(⟨_stable_id_from_phone "unknown", name1, "unknown", "", ""⟩ : Customer)],
          _stable_id_from_phone "unknown", true) := by
      unfold get_or_create_customer
      rw [hn1]
      dsimp only
      rw [hfind]
    have hfind2 : (db.filter (fun r : Customer => r.id != _stable_id_from_phone "unknown" &&
          r.phone != "unknown") ++
        [(⟨_stable_id_from_phone "unknown", name1, "unknown", "", ""⟩ : Customer)]).find?
          (fun c : Customer => c.phone == "unknown")
        = some ⟨_stable_id_from_phone "unknown", name1, "unknown", "", ""⟩ := by
      rw [List.find?_append]
      have hleft : (db.filter (fun r : Customer => r.id != _stable_id_from_phone "unknown" &&
          r.phone != "unknown")).find? (fun c : Customer => c.phone == "unknown") = none :=
        List.find?_eq_none.mpr
          (fun x hx => hnone x (List.mem_of_mem_filter hx))
      rw [hleft]
      rfl
    have hg2 : get_or_create_customer (get_or_create_customer db name1 s1).1
        name2 s2 =
        ((db.filter (fun r : Customer => r.id != _stable_id_from_phone "unknown" &&
            r.phone != "unknown") ++
          [(⟨_stable_id_from_phone "unknown", name1, "unknown", "", ""⟩ : Customer)]).map
            (fun r : Customer => if r.id == _stable_id_from_phone "unknown" then
              { r with name := name2 } else r),
          _stable_id_from_phone "unknown", false) := by
      rw [hg1]
      unfold get_or_create_customer
      rw [hn2]
      dsimp only
      rw [hfind2]
    rw [hg2, hg1]
    refine ⟨rfl, rfl, ?_, ?_⟩
    · refine ⟨(fun r : Customer => if r.id == _stable_id_from_phone "unknown" then
          { r with name := name2 } else r)
          (⟨_stable_id_from_phone "unknown", name1, "unknown", "", ""⟩ : Customer),
        List.mem_map_of_mem _ (List.mem_append_right _ (List.mem_singleton.mpr
          rfl)), ?_⟩
      simp
    · intro c hc hcp
      obtain ⟨y, hy, rfl⟩ := List.mem_map.mp hc
      have hp2 : ∀ r : Customer,
          ((fun r : Customer => if r.id == _stable_id_from_phone "unknown" then
            { r with name := name2 } else r) r).phone = r.phone := by
        intro r
        dsimp only
        split <;> rfl
      rw [hp2] at hcp
      rcases List.mem_append.mp hy with hyf | hys
      · exact absurd (beq_iff_eq.mpr hcp)
          (hnone y (List.mem_of_mem_filter hyf))
      · have hyeq : y = (⟨_stable_id_from_phone "unknown", name1, "unknown",
            "", ""⟩ : Customer) := List.mem_singleton.mp hys
        subst hyeq
        simp

/-- C10 (witness): the empty string and `"abc"` share the customer id, and
two calls against the one-customer table land on one shared record. -/
theorem digitless_phone_shared_customer_witness :
    _normalize_phone "" = "unknown" ∧
    _stable_id_from_phone "" = _stable_id_from_phone "abc" ∧
    _stable_id_from_phone "" =
      "CUS-" ++ String.mk ((sha1Hex (utf8Bytes "unknown")).data.take 10) ∧
    (get_or_create_customer (get_or_create_customer dbOne "Bob" "").1 "Carol"
      "abc").2.1 = (get_or_create_customer dbOne "Bob" "").2.1 ∧
    (get_or_create_customer (get_or_create_customer dbOne "Bob" "").1 "Carol"
      "abc").2.2 = false ∧
    (∃ c ∈ (get_or_create_customer (get_or_create_customer dbOne "Bob" "").1
      "Carol" "abc").1, c.phone = "unknown") ∧
    (∀ c ∈ (get_or_create_customer (get_or_create_customer dbOne "Bob" "").1
      "Carol" "abc").1, c.phone = "unknown" →
        c.name = "Carol" ∧ c.id = (get_or_create_customer dbOne "Bob" "").2.1) :=
  digitless_phone_shared_customer "" "abc" "Bob" "Carol" dbOne (by decide)
    (by decide) (by decide)

end Techxpo
